import Mathlib

/-!
Shallow embedding of the wallet-service ledger core (NestJS/TypeORM source):
wallet creation and wallet-number generation, deposit initiation, the
Paystack-webhook deposit reconciliation (`creditWalletFromWebhook`), the
peer-to-peer `transfer`, transaction listing and deposit-status lookup,
together with the webhook signature gates of the two controller variants.

Modelling conventions:
 - Monetary amounts and balances are `Int` (KOBO minor units; the DB column
   is a signed bigint).
 - Row ids (uuid in the source) are modelled as `Nat`, allocated from
   counters in the state.
 - `repository.findOne({where})` is `List.find?` over the stored rows.
 - `repository.save` of an updated row is a map replacing the row with the
   matching primary key; `save` of a new row appends it, after enforcing
   the unique indexes declared in the entities/migration
   (`wallets.user_id`, `wallets.wallet_number`, `transactions.reference`);
   an index violation is a `queryFailed` error (TypeORM QueryFailedError).
 - A `dataSource.transaction` block that throws rolls back: modelled by
   returning `.error` and no successor state.
 - `Date.now()`-based data (`createdAt`, references) are driven by the
   logical counter `nextTxnId` or by caller-supplied strings.
-/

inductive TxType where
  | deposit
  | transfer_in
  | transfer_out
deriving DecidableEq, Repr

inductive TxStatus where
  | pending
  | success
  | failed
deriving DecidableEq, Repr

/-- A row of the `transactions` table (transaction.entity.ts). -/
structure Txn where
  id : Nat
  walletId : Nat
  type : TxType
  amount : Int
  status : TxStatus
  reference : String
  createdAt : Nat
deriving DecidableEq, Repr

/-- A row of the `wallets` table (wallet.entity.ts). -/
structure Wallet where
  id : Nat
  userId : String
  walletNumber : String
  balance : Int
deriving DecidableEq, Repr

/-- The persistent datastore: users, wallets, transactions, plus id
counters standing in for uuid generation and insertion time. -/
structure LedgerState where
  users : List String
  wallets : List Wallet
  txns : List Txn
  nextWalletId : Nat
  nextTxnId : Nat
deriving DecidableEq, Repr

/-- The error classes thrown by the service layer (Nest exceptions), plus
`queryFailed` for database unique-index violations surfacing from
`repository.save`. -/
inductive WErr where
  | notFound (msg : String)
  | badRequest (msg : String)
  | conflictE (msg : String)
  | internalServer (msg : String)
  | unauthorizedE (msg : String)
  | forbiddenE (msg : String)
  | queryFailed (msg : String)
deriving DecidableEq, Repr

def initState : LedgerState :=
  { users := [], wallets := [], txns := [], nextWalletId := 0, nextTxnId := 0 }

/-- Model of `transactionRepository.findOne({ where: { reference } })`. -/
def findTxnByReference (st : LedgerState) (ref : String) : Option Txn :=
  st.txns.find? (fun t => t.reference == ref)

/-- Model of `walletRepository.findOne({ where: { id } })`. -/
def findWalletById (st : LedgerState) (wid : Nat) : Option Wallet :=
  st.wallets.find? (fun w => w.id == wid)

/-- Model of `walletRepository.findOne({ where: { userId } })`. -/
def findWalletByUserId (st : LedgerState) (uid : String) : Option Wallet :=
  st.wallets.find? (fun w => w.userId == uid)

/-- Model of `walletRepository.findOne({ where: { walletNumber } })`. -/
def findWalletByNumber (st : LedgerState) (num : String) : Option Wallet :=
  st.wallets.find? (fun w => w.walletNumber == num)

/-- Saving an updated wallet row: replace the row with the given primary
key (`manager.save(Wallet, wallet)` on a fetched row). -/
def updateWalletById (ws : List Wallet) (wid : Nat) (w' : Wallet) : List Wallet :=
  ws.map (fun w => if w.id == wid then w' else w)

/-- Saving an updated transaction row: replace the row with the given
primary key (`manager.save(Transaction, transaction)` on a fetched row). -/
def updateTxnById (ts : List Txn) (tid : Nat) (t' : Txn) : List Txn :=
  ts.map (fun t => if t.id == tid then t' else t)

/-- The balance the store reports for a wallet id. -/
def walletBalance (st : LedgerState) (wid : Nat) : Option Int :=
  (findWalletById st wid).map (fun w => w.balance)

def txnReferenceExists (st : LedgerState) (ref : String) : Bool :=
  st.txns.any (fun t => t.reference == ref)

def walletNumberExists (st : LedgerState) (num : String) : Bool :=
  st.wallets.any (fun w => w.walletNumber == num)

/-- Fueled decimal-digit renderer (structural recursion so that concrete
instances reduce in the kernel); `fuel > n` always suffices. -/
def decimalDigitsGo : Nat → Nat → List Char
  | 0, _ => []
  | fuel + 1, n =>
      if n < 10 then [Char.ofNat (48 + n)]
      else decimalDigitsGo fuel (n / 10) ++ [Char.ofNat (48 + n % 10)]

/-- Decimal rendering of a natural number (the JS template-literal
rendering of `randomDigits` in \x60 45${randomDigits} \x60). -/
def decimalDigits (n : Nat) : List Char := decimalDigitsGo (n + 1) n

/-- The candidate wallet number built from one random draw:
`walletNumber = \x60 45${randomDigits} \x60` (wallet service line 196). -/
def walletNumberFromDraw (d : Nat) : String :=
  String.mk ('4' :: '5' :: decimalDigits d)

def MAX_ATTEMPTS : Nat := 10

/-- The retry loop body of `generateUniqueWalletNumber` (wallet service
lines 191-211): `fuel` is the number of attempts remaining
(`MAX_ATTEMPTS - attempts`); `draws i` is the random draw of attempt `i`,
standing in for `Math.floor(10000000 + Math.random() * 90000000)`. -/
def genWalletNumberFrom (st : LedgerState) (draws : Nat → Nat) : Nat → Except WErr String
  | 0 =>
      .error (.internalServer
        "Failed to generate unique wallet number after maximum attempts")
  | fuel + 1 =>
      let walletNumber := walletNumberFromDraw (draws (MAX_ATTEMPTS - (fuel + 1)))
      if walletNumberExists st walletNumber then
        genWalletNumberFrom st draws fuel
      else
        .ok walletNumber

/-- Model of `WalletService.generateUniqueWalletNumber` (authoritative
wallet service, lines 187-217): bounded retry with `MAX_ATTEMPTS = 10`,
checking each candidate against the store before returning it. -/
def generateUniqueWalletNumber (st : LedgerState) (draws : Nat → Nat) : Except WErr String :=
  genWalletNumberFrom st draws MAX_ATTEMPTS

/-- Model of `WalletService.createWallet` (authoritative wallet service,
lines 160-180): generate a unique number, then save a zero-balance wallet.
There is no application-level duplicate-owner check; the save enforces the
unique DB indexes on `user_id` and `wallet_number` (wallet.entity.ts,
migration part_000), raising a query failure on violation. -/
def createWallet (userId : String) (draws : Nat → Nat) (st : LedgerState) :
    Except WErr (LedgerState × Wallet) :=
  match generateUniqueWalletNumber st draws with
  | .error e => .error e
  | .ok walletNumber =>
      let wallet : Wallet :=
        { id := st.nextWalletId, userId := userId,
          walletNumber := walletNumber, balance := 0 }
      if st.wallets.any (fun w => w.userId == userId) then
        .error (.queryFailed "duplicate key value violates unique index on wallets.user_id")
      else if st.wallets.any (fun w => w.walletNumber == walletNumber) then
        .error (.queryFailed "duplicate key value violates unique index on wallets.wallet_number")
      else
        .ok ({ st with
                wallets := st.wallets ++ [wallet]
                nextWalletId := st.nextWalletId + 1 }, wallet)

/-- Model of `WalletService.creditWalletFromWebhook` (authoritative wallet
service, lines 330-407). The whole body runs in `dataSource.transaction`;
a thrown error rolls everything back, so the error branches return no
state. Checks happen in source order: row lookup by reference, idempotency
short-circuit on `success`, type check, amount check, then the status
update and the wallet credit. -/
def creditWalletFromWebhook (ref : String) (amount : Int) (st : LedgerState) :
    Except WErr LedgerState :=
  match findTxnByReference st ref with
  | none => .error (.notFound "Transaction not found")
  | some transaction =>
      if transaction.status == .success then
        .ok st
      else if !(transaction.type == .deposit) then
        .error (.badRequest "Invalid transaction type")
      else if !(transaction.amount == amount) then
        .error (.badRequest "Amount mismatch")
      else
        let transaction' := { transaction with status := TxStatus.success }
        let st1 := { st with txns := updateTxnById st.txns transaction.id transaction' }
        match findWalletById st1 transaction.walletId with
        | none => .error (.notFound "Wallet not found")
        | some wallet =>
            let wallet' := { wallet with balance := wallet.balance + amount }
            .ok { st1 with wallets := updateWalletById st1.wallets wallet.id wallet' }

/-- Model of `WalletService.transfer` (authoritative wallet service, lines
458-582). Pre-checks outside the atomic section, then the
`dataSource.transaction` block: re-fetch both wallets by id (the
pessimistic locks), re-check the balance, update both balances, insert the
`transfer_out`/`transfer_in` rows, and return the id of the saved
`transfer_out` row (`savedTransactions[0].id`). `ref` stands for the
generated `TRF_${Date.now()}_${uuid}` stem. -/
def transfer (userId recipientWalletNumber : String) (amount : Int) (ref : String)
    (st : LedgerState) : Except WErr (LedgerState × Nat) :=
  if amount < 100 then .error (.badRequest "Minimum transfer is 100 KOBO (1 Naira)")
  else
    match findWalletByUserId st userId with
    | none => .error (.notFound "Your wallet not found")
    | some senderWallet =>
        if senderWallet.walletNumber == recipientWalletNumber then
          .error (.badRequest "Cannot transfer to yourself")
        else
          match findWalletByNumber st recipientWalletNumber with
          | none => .error (.notFound "Recipient wallet not found")
          | some recipientWallet =>
              if senderWallet.balance < amount then
                .error (.badRequest "Insufficient balance")
              else
                match findWalletById st senderWallet.id with
                | none => .error (.notFound "Sender wallet not found during lock")
                | some lockedSender =>
                    match findWalletById st recipientWallet.id with
                    | none => .error (.notFound "Recipient wallet not found during lock")
                    | some lockedRecipient =>
                        if lockedSender.balance < amount then
                          .error (.badRequest "Insufficient balance")
                        else
                          let sender' := { lockedSender with
                            balance := lockedSender.balance - amount }
                          let recipient' := { lockedRecipient with
                            balance := lockedRecipient.balance + amount }
                          let wallets' :=
                            updateWalletById
                              (updateWalletById st.wallets lockedSender.id sender')
                              lockedRecipient.id recipient'
                          let outTxn : Txn :=
                            { id := st.nextTxnId, walletId := lockedSender.id,
                              type := .transfer_out, amount := amount,
                              status := .success, reference := ref ++ "_OUT",
                              createdAt := st.nextTxnId }
                          let inTxn : Txn :=
                            { id := st.nextTxnId + 1, walletId := lockedRecipient.id,
                              type := .transfer_in, amount := amount,
                              status := .success, reference := ref ++ "_IN",
                              createdAt := st.nextTxnId }
                          if txnReferenceExists st outTxn.reference
                              || txnReferenceExists st inTxn.reference then
                            .error (.queryFailed
                              "duplicate key value violates unique index on transactions.reference")
                          else
                            .ok ({ st with
                                    wallets := wallets'
                                    txns := st.txns ++ [outTxn, inTxn]
                                    nextTxnId := st.nextTxnId + 2 }, outTxn.id)

/-- Model of `WalletService.initializeDeposit` (authoritative wallet
service, lines 226-322). Not wrapped in a database transaction: the
pending row persists across the gateway call, and on gateway failure the
row is re-saved as `failed` before the error propagates, so the function
returns the post-state in every branch. `ref` stands for the generated
`TXN_${Date.now()}_${random}` reference and `gatewayOk` for the outcome of
`paystackService.initializeTransaction`. -/
def initializeDeposit (userId : String) (amount : Int) (ref : String) (gatewayOk : Bool)
    (st : LedgerState) : LedgerState × Except WErr String :=
  if amount <= 0 then (st, .error (.badRequest "Amount must be greater than 0"))
  else if amount < 100 then
    (st, .error (.badRequest "Minimum deposit amount is 100 KOBO"))
  else if !(st.users.contains userId) then (st, .error (.notFound "User not found"))
  else
    match findWalletByUserId st userId with
    | none => (st, .error (.notFound "Wallet not found"))
    | some wallet =>
        let transaction : Txn :=
          { id := st.nextTxnId, walletId := wallet.id, type := .deposit,
            amount := amount, status := .pending, reference := ref,
            createdAt := st.nextTxnId }
        if txnReferenceExists st ref then
          (st, .error (.queryFailed
            "duplicate key value violates unique index on transactions.reference"))
        else
          let st1 := { st with
                        txns := st.txns ++ [transaction]
                        nextTxnId := st.nextTxnId + 1 }
          if gatewayOk then (st1, .ok ref)
          else
            ({ st1 with txns := updateTxnById st1.txns transaction.id
                          { transaction with status := TxStatus.failed } },
             .error (.internalServer "Paystack initialization failed"))

/-- Insertion step of the `createdAt DESC` ordering applied by
`getTransactions` (the datastore's `order: createdAt DESC`). -/
def insertByCreatedAtDesc (t : Txn) : List Txn → List Txn
  | [] => [t]
  | h :: rest =>
      if h.createdAt ≤ t.createdAt then t :: h :: rest
      else h :: insertByCreatedAtDesc t rest

/-- Reverse-chronological (newest-first) sort used to model the
datastore's `order: { createdAt: DESC }`. -/
def sortByCreatedAtDesc : List Txn → List Txn
  | [] => []
  | h :: rest => insertByCreatedAtDesc h (sortByCreatedAtDesc rest)

/-- Model of `WalletService.getTransactions` (authoritative wallet
service, lines 586-624): clamp the pagination parameters
(`validPage = max 1 page`, `validLimit = min 100 (max 1 limit)`), resolve
the caller's wallet, and page through that wallet's transactions in
`createdAt DESC` order. -/
def getTransactions (userId : String) (page limit : Int) (st : LedgerState) :
    Except WErr (List Txn) :=
  let validPage := max 1 page
  let validLimit := min 100 (max 1 limit)
  match findWalletByUserId st userId with
  | none => .error (.notFound "Wallet not found")
  | some wallet =>
      let skip := (validPage - 1) * validLimit
      let rows := sortByCreatedAtDesc (st.txns.filter (fun t => t.walletId == wallet.id))
      .ok ((rows.drop skip.toNat).take validLimit.toNat)

/-- The response shape of `getDepositStatus`. -/
structure DepositStatusView where
  reference : String
  status : TxStatus
  amount : Int
  createdAt : Nat
deriving DecidableEq, Repr

/-- Model of `WalletService.getDepositStatus` (authoritative wallet
service, lines 629-651): a read-only lookup keyed solely on the
transaction reference. -/
def getDepositStatus (ref : String) (st : LedgerState) : Except WErr DepositStatusView :=
  match findTxnByReference st ref with
  | none => .error (.notFound "Transaction not found")
  | some transaction =>
      .ok { reference := transaction.reference, status := transaction.status,
            amount := transaction.amount, createdAt := transaction.createdAt }

inductive AuthType where
  | jwt
  | apiKey
deriving DecidableEq, Repr

/-- An authenticated principal as attached to the request by the guards
(`request.user`): a JWT principal has full access, an API-key principal
carries an explicit permission list. -/
structure Principal where
  authType : AuthType
  userId : String
  permissions : List String
deriving DecidableEq, Repr

/-- Model of `PermissionsGuard.canActivate` (permissions.guard.ts): no
required permissions, or a JWT principal, passes; an API-key principal
must hold every required permission. -/
def permissionsGuardAllows (required : List String) (p : Principal) : Bool :=
  if required.isEmpty then true
  else
    match p.authType with
    | .jwt => true
    | .apiKey => required.all (fun r => p.permissions.contains r)

/-- Model of the `GET /wallet/deposit/:reference/status` endpoint
(`WalletController.getDepositStatus`, part_006): guarded by the `read`
permission, then delegating to the service with only the reference. -/
def getDepositStatusEndpoint (p : Principal) (ref : String) (st : LedgerState) :
    Except WErr DepositStatusView :=
  if permissionsGuardAllows ["read"] p then getDepositStatus ref st
  else .error (.forbiddenE "API key lacks required permissions: read")

/-- The sequence of wallet ids on which `WalletService.transfer` takes its
pessimistic write locks inside the atomic section (authoritative wallet
service, lines 507-515): first the sender wallet row, then the recipient
wallet row. -/
def transferLockAcquisitionOrder (senderId recipientId : Nat) : List Nat :=
  [senderId, recipientId]

/-- Replay of the `transfer` path up to the atomic section, returning the
ordered wallet-id list of the two pessimistic lock acquisitions when the
atomic section is entered, and `none` when a pre-check rejects first. -/
def transferLockTrace (userId recipientWalletNumber : String) (amount : Int)
    (st : LedgerState) : Option (List Nat) :=
  if amount < 100 then none
  else
    match findWalletByUserId st userId with
    | none => none
    | some senderWallet =>
        if senderWallet.walletNumber == recipientWalletNumber then none
        else
          match findWalletByNumber st recipientWalletNumber with
          | none => none
          | some recipientWallet =>
              if senderWallet.balance < amount then none
              else some (transferLockAcquisitionOrder senderWallet.id recipientWallet.id)

/-- The operations of the ledger core that mutate the datastore, with
their external nondeterminism (random draws, references, gateway outcome)
supplied as data. -/
inductive Op where
  | createUser (userId : String)
  | createWallet (userId : String) (draws : Nat → Nat)
  | initDeposit (userId : String) (amount : Int) (ref : String) (gatewayOk : Bool)
  | transfer (userId recipientWalletNumber : String) (amount : Int) (ref : String)
  | webhook (reference : String) (amount : Int)

/-- Post-commit successor state of one operation: a rolled-back (erroring)
transactional operation leaves the datastore unchanged, while
`initializeDeposit` persists its rows even on failure. -/
def step (st : LedgerState) : Op → LedgerState
  | .createUser uid =>
      if st.users.contains uid then st else { st with users := st.users ++ [uid] }
  | .createWallet uid draws =>
      match createWallet uid draws st with
      | .ok (st', _) => st'
      | .error _ => st
  | .initDeposit uid amount ref gatewayOk =>
      (initializeDeposit uid amount ref gatewayOk st).1
  | .transfer uid num amount ref =>
      match transfer uid num amount ref st with
      | .ok (st', _) => st'
      | .error _ => st
  | .webhook ref amount =>
      match creditWalletFromWebhook ref amount st with
      | .ok st' => st'
      | .error _ => st

/-- The post-commit state reached from the empty datastore by a sequence
of operations. -/
def runOps (ops : List Op) : LedgerState :=
  ops.foldl step initState

/-- Is the result a Conflict/AlreadyExists-class error
(Nest `ConflictException`)? -/
def isConflictError {α : Type} : Except WErr α → Bool
  | .error (.conflictE _) => true
  | _ => false

/-!
Webhook signature verification (claim C5). The MAC primitive
(`crypto.createHmac('sha512', secret)`) is an external collaborator; it is
kept abstract as a function parameter `mac : secret → bytes → hex digest`.
What the source decides — and what the claim is about — is WHICH BYTES are
fed to it. The body-parsing pipeline (`JSON.parse` by the framework,
`JSON.stringify` in the first controller variant) is modelled on a minimal
payload shape, a single numeric `amount` field, which suffices to exhibit
that re-serialization is not byte-identical to the raw body: the parser
accepts insignificant whitespace that the serializer does not re-emit.
-/

def skipSpaces : List Char → List Char
  | ' ' :: rest => skipSpaces rest
  | l => l

def expectChars : List Char → List Char → Option (List Char)
  | [], l => some l
  | _ :: _, [] => none
  | c :: cs, d :: ds => if c = d then expectChars cs ds else none

/-- Trailing part of the numeric-field parser: after the digits, optional
spaces and the closing brace, then end of input. -/
def parseClosing (acc : Nat) (l : List Char) : Option Nat :=
  match skipSpaces l with
  | c :: rest => if c = Char.ofNat 125 ∧ (skipSpaces rest).isEmpty then some acc else none
  | [] => none

def parseNum (acc : Nat) : List Char → Option Nat
  | [] => none
  | c :: rest =>
      if c.isDigit then parseNum (10 * acc + (c.toNat - 48)) rest
      else parseClosing acc (c :: rest)

/-- Model of `JSON.parse` restricted to payloads of the shape
`{"amount": n}`, tolerating insignificant whitespace as JSON does. -/
def parsePayload (s : String) : Option Nat :=
  match skipSpaces s.data with
  | [] => none
  | c :: rest =>
      if c = Char.ofNat 123 then
        match expectChars ('"' :: 'a' :: 'm' :: 'o' :: 'u' :: 'n' :: 't' :: '"' :: [])
            (skipSpaces rest) with
        | none => none
        | some l2 =>
            match skipSpaces l2 with
            | ':' :: l3 =>
                match skipSpaces l3 with
                | d :: l4 => if d.isDigit then parseNum (d.toNat - 48) l4 else none
                | [] => none
            | _ => none
      else none

/-- Model of `JSON.stringify` on the same payload shape: the canonical
serialization, which emits no insignificant whitespace. -/
def stringifyPayload (n : Nat) : String :=
  String.mk (Char.ofNat 123 :: '"' :: 'a' :: 'm' :: 'o' :: 'u' :: 'n' :: 't' :: '"' :: ':'
    :: (decimalDigits n ++ [Char.ofNat 125]))

/-- Model of `PaystackService.verifyWebhookSignature`, first variant
(paystack.service.ts lines 119-148): reject a missing signature, then
compare the recomputed digest with `hash === signature`. -/
def verifyWebhookSignatureV1 (mac : String → String → String) (secret signature payload : String) :
    Bool :=
  if signature == "" then false
  else mac secret payload == signature

/-- Model of `PaystackService.verifyWebhookSignature`, second variant
(paystack.service.ts lines 243-285): reject a missing signature or empty
body, then compare via `crypto.timingSafeEqual` (functionally, equality of
the two digests; its constant-time execution is a timing property outside
this embedding). -/
def verifyWebhookSignatureV2 (mac : String → String → String) (secret signature rawBody : String) :
    Bool :=
  if signature == "" then false
  else if rawBody == "" then false
  else mac secret rawBody == signature

/-- The signature step of `WalletController.handlePaystackWebhook`,
`JSON.stringify` variant (part_006 lines 99-160): the verified bytes are
`JSON.stringify(payload)` where `payload` is the framework-parsed body.
Returns the bytes over which the MAC was computed when the gate passes. -/
def webhookSignatureGateV1 (mac : String → String → String) (secret signature raw : String) :
    Except WErr String :=
  match parsePayload raw with
  | none => .error (.badRequest "Unparseable body")
  | some payload =>
      let rawBody := stringifyPayload payload
      if verifyWebhookSignatureV1 mac secret signature rawBody then .ok rawBody
      else .error (.unauthorizedE "Invalid signature")

/-- The signature step of `WalletController.handlePaystackWebhook`,
rawBody variant (part_006 lines 452-489): missing raw body is a
BadRequest, missing signature an Unauthorized, and the verified bytes are
exactly the received raw bytes. -/
def webhookSignatureGateV2 (mac : String → String → String) (secret signature raw : String) :
    Except WErr String :=
  if raw == "" then .error (.badRequest "Raw body required for signature verification")
  else if signature == "" then .error (.unauthorizedE "Missing x-paystack-signature header")
  else if verifyWebhookSignatureV2 mac secret signature raw then .ok raw
  else .error (.unauthorizedE "Invalid webhook signature")

/-!
Generic lemmas about `findOne`/`save` (`List.find?` over a row list, and
the map that replaces the rows matching an update key).
-/

/-- After replacing the rows matching `q` by `a'`, a `find?` whose
predicate the found row and the replacement both satisfy returns the
replacement. -/
theorem find?_map_update {α : Type} (p q : α → Bool) (a a' : α) (l : List α)
    (hfind : l.find? p = some a) (hqa : q a = true) (hpa' : p a' = true) :
    (l.map (fun x => if q x then a' else x)).find? p = some a' := by
  induction l with
  | nil => simp at hfind
  | cons h t ih =>
      by_cases hp : p h = true
      · rw [List.find?_cons_of_pos _ hp] at hfind
        have ha : a = h := by injection hfind with h'; exact h'.symm
        subst ha
        rw [hqa.symm] at hp ⊢
        simp only [List.map_cons, if_pos hqa]
        exact List.find?_cons_of_pos _ hpa'
      · have hfind' : t.find? p = some a := by
          rwa [List.find?_cons_of_neg _ hp] at hfind
        by_cases hq : q h = true
        · simp only [List.map_cons, if_pos hq]
          exact List.find?_cons_of_pos _ hpa'
        · simp only [List.map_cons, if_neg hq]
          rw [List.find?_cons_of_neg _ hp]
          exact ih hfind'

/-- Replacing the rows matching `q` by `a'` does not affect a `find?`
whose predicate is disjoint from `q` and false on the replacement. -/
theorem find?_map_update_ne {α : Type} (p q : α → Bool) (a' : α) (l : List α)
    (hpa' : p a' = false) (hpq : ∀ x, q x = true → p x = false) :
    (l.map (fun x => if q x then a' else x)).find? p = l.find? p := by
  induction l with
  | nil => simp
  | cons h t ih =>
      by_cases hq : q h = true
      · simp only [List.map_cons, if_pos hq]
        rw [List.find?_cons_of_neg _ (by simp [hpa']),
            List.find?_cons_of_neg _ (by simp [hpq h hq])]
        exact ih
      · simp only [List.map_cons, if_neg hq]
        by_cases hp : p h = true
        · rw [List.find?_cons_of_pos _ hp, List.find?_cons_of_pos _ hp]
        · rw [List.find?_cons_of_neg _ hp, List.find?_cons_of_neg _ hp]
          exact ih

/-- Every element of the updated row list is the replacement or an
original row. -/
theorem mem_map_update {α : Type} (q : α → Bool) (a' : α) (l : List α) (x : α)
    (hx : x ∈ l.map (fun y => if q y then a' else y)) : x = a' ∨ x ∈ l := by
  obtain ⟨y, hy, hxy⟩ := List.mem_map.mp hx
  by_cases hq : q y = true
  · left; rw [← hxy, if_pos hq]
  · right; rw [← hxy, if_neg hq]; exact hy

/-- A pairwise-distinct projection survives mapping by a function that
preserves that projection on the list's members. -/
theorem pairwise_ne_map_of_eq_on {α β : Type} (f : α → α) (g : α → β) (l : List α)
    (hg : ∀ x ∈ l, g (f x) = g x)
    (h : l.Pairwise (fun a b => g a ≠ g b)) :
    (l.map f).Pairwise (fun a b => g a ≠ g b) := by
  induction l with
  | nil => simp
  | cons hd t ih =>
      rw [List.pairwise_cons] at h
      rw [List.map_cons, List.pairwise_cons]
      constructor
      · intro b hb
        obtain ⟨y, hy, hby⟩ := List.mem_map.mp hb
        rw [← hby, hg hd (by simp), hg y (by simp [hy])]
        exact h.1 y hy
      · exact ih (fun x hx => hg x (by simp [hx])) h.2

/-- In a list of wallets with pairwise-distinct ids, `find?` by a member's
id returns that member. -/
theorem find?_by_id_of_unique (l : List Wallet) (w : Wallet)
    (h : l.Pairwise (fun a b => a.id ≠ b.id)) (hw : w ∈ l) :
    l.find? (fun x => x.id == w.id) = some w := by
  induction l with
  | nil => simp at hw
  | cons hd t ih =>
      rw [List.pairwise_cons] at h
      rcases List.mem_cons.mp hw with heq | hmem
      · subst heq
        exact List.find?_cons_of_pos _ (by simp)
      · have hne : hd.id ≠ w.id := h.1 w hmem
        rw [List.find?_cons_of_neg _ (by simp [hne])]
        exact ih h.2 hmem

/-- In a list of wallets with pairwise-distinct ids, all members sharing
an id are the single row `find?` returns for that id. -/
theorem eq_of_mem_of_find?_id (l : List Wallet) (w x : Wallet) (wid : Nat)
    (h : l.Pairwise (fun a b => a.id ≠ b.id))
    (hfind : l.find? (fun y => y.id == wid) = some w)
    (hx : x ∈ l) (hxid : x.id = wid) : x = w := by
  induction l with
  | nil => simp at hx
  | cons hd t ih =>
      rw [List.pairwise_cons] at h
      by_cases hhd : (hd.id == wid) = true
      · rw [List.find?_cons_of_pos (p := fun y => y.id == wid) t hhd] at hfind
        have hw : w = hd := by injection hfind with h'; exact h'.symm
        subst hw
        rcases List.mem_cons.mp hx with heq | hmem
        · exact heq
        · have hhd' : w.id = wid := by simpa using hhd
          exact absurd (hhd'.trans hxid.symm) (h.1 x hmem)
      · rw [List.find?_cons_of_neg (p := fun y => y.id == wid) t hhd] at hfind
        rcases List.mem_cons.mp hx with heq | hmem
        · subst heq; exact absurd (by simp [hxid]) hhd
        · exact ih h.2 hfind hmem

/-!
Lemmas about the `createdAt DESC` ordering and the decimal rendering.
-/

theorem mem_insertByCreatedAtDesc (t x : Txn) (l : List Txn)
    (hx : x ∈ insertByCreatedAtDesc t l) : x = t ∨ x ∈ l := by
  induction l with
  | nil =>
      rw [insertByCreatedAtDesc] at hx
      exact Or.inl (List.mem_singleton.mp hx)
  | cons hd rest ih =>
      rw [insertByCreatedAtDesc] at hx
      by_cases hc : hd.createdAt ≤ t.createdAt
      · rw [if_pos hc] at hx
        rcases List.mem_cons.mp hx with rfl | hmem
        · exact Or.inl rfl
        · exact Or.inr hmem
      · rw [if_neg hc] at hx
        rcases List.mem_cons.mp hx with rfl | hmem
        · exact Or.inr (List.mem_cons_self _ _)
        · rcases ih hmem with rfl | h2
          · exact Or.inl rfl
          · exact Or.inr (List.mem_cons_of_mem _ h2)

theorem pairwise_insertByCreatedAtDesc (t : Txn) (l : List Txn)
    (h : l.Pairwise (fun a b => b.createdAt ≤ a.createdAt)) :
    (insertByCreatedAtDesc t l).Pairwise (fun a b => b.createdAt ≤ a.createdAt) := by
  induction l with
  | nil => simp [insertByCreatedAtDesc]
  | cons hd rest ih =>
      rw [List.pairwise_cons] at h
      rw [insertByCreatedAtDesc]
      by_cases hc : hd.createdAt ≤ t.createdAt
      · rw [if_pos hc, List.pairwise_cons]
        refine ⟨?_, List.pairwise_cons.mpr h⟩
        intro b hb
        rcases List.mem_cons.mp hb with rfl | hmem
        · exact hc
        · exact le_trans (h.1 b hmem) hc
      · rw [if_neg hc, List.pairwise_cons]
        constructor
        · intro b hb
          rcases mem_insertByCreatedAtDesc t b rest hb with rfl | hmem
          · omega
          · exact h.1 b hmem
        · exact ih h.2

theorem mem_sortByCreatedAtDesc (x : Txn) (l : List Txn)
    (hx : x ∈ sortByCreatedAtDesc l) : x ∈ l := by
  induction l with
  | nil => rw [sortByCreatedAtDesc] at hx; exact hx
  | cons hd rest ih =>
      rw [sortByCreatedAtDesc] at hx
      rcases mem_insertByCreatedAtDesc _ _ _ hx with rfl | hmem
      · exact List.mem_cons_self _ _
      · exact List.mem_cons_of_mem _ (ih hmem)

theorem pairwise_sortByCreatedAtDesc (l : List Txn) :
    (sortByCreatedAtDesc l).Pairwise (fun a b => b.createdAt ≤ a.createdAt) := by
  induction l with
  | nil => simp [sortByCreatedAtDesc]
  | cons hd rest ih =>
      rw [sortByCreatedAtDesc]
      exact pairwise_insertByCreatedAtDesc hd _ ih

theorem decimalDigitsGo_length :
    ∀ fuel k n, n < fuel → 10 ^ k ≤ n → n < 10 ^ (k + 1) →
      (decimalDigitsGo fuel n).length = k + 1 := by
  intro fuel
  induction fuel with
  | zero => intro k n h; omega
  | succ fuel ih =>
      intro k n hfuel h1 h2
      by_cases h10 : n < 10
      · rw [decimalDigitsGo, if_pos h10]
        cases k with
        | zero => rfl
        | succ k =>
            exfalso
            have : (10 : Nat) ^ 1 ≤ 10 ^ (k + 1) :=
              Nat.pow_le_pow_right (by norm_num) (by omega)
            simp only [pow_one] at this
            omega
      · rw [decimalDigitsGo, if_neg h10, List.length_append, List.length_cons,
          List.length_nil]
        cases k with
        | zero => norm_num at h2; omega
        | succ k =>
            have hlo : 10 ^ k ≤ n / 10 := by
              rw [Nat.le_div_iff_mul_le (by norm_num)]
              calc 10 ^ k * 10 = 10 ^ (k + 1) := (pow_succ 10 k).symm
              _ ≤ n := h1
            have hhi : n / 10 < 10 ^ (k + 1) := by
              rw [Nat.div_lt_iff_lt_mul (by norm_num)]
              calc n < 10 ^ (k + 2) := h2
              _ = 10 ^ (k + 1) * 10 := pow_succ 10 (k + 1)
            have hfuel' : n / 10 < fuel := by
              have : n / 10 < n := Nat.div_lt_self (by omega) (by omega)
              omega
            rw [ih k (n / 10) hfuel' hlo hhi]

theorem decimalDigits_length (k : Nat) :
    ∀ n, 10 ^ k ≤ n → n < 10 ^ (k + 1) → (decimalDigits n).length = k + 1 := by
  intro n h1 h2
  exact decimalDigitsGo_length (n + 1) k n (by omega) h1 h2

theorem decimalDigitsGo_isDigit :
    ∀ fuel n, ∀ c ∈ decimalDigitsGo fuel n, c.isDigit = true := by
  intro fuel
  induction fuel with
  | zero => intro n c hc; simp [decimalDigitsGo] at hc
  | succ fuel ih =>
      intro n c hc
      by_cases h : n < 10
      · rw [decimalDigitsGo, if_pos h] at hc
        rw [List.mem_singleton] at hc
        subst hc
        interval_cases n <;> decide
      · rw [decimalDigitsGo, if_neg h] at hc
        rcases List.mem_append.mp hc with hc1 | hc2
        · exact ih (n / 10) c hc1
        · rw [List.mem_singleton] at hc2
          subst hc2
          have hm : n % 10 < 10 := Nat.mod_lt n (by omega)
          set m := n % 10 with hmdef
          interval_cases m <;> decide

theorem decimalDigits_isDigit (n : Nat) : ∀ c ∈ decimalDigits n, c.isDigit = true :=
  decimalDigitsGo_isDigit (n + 1) n

/-!
Lemmas about the bounded wallet-number retry loop.
-/

theorem genWalletNumberFrom_ok (st : LedgerState) (draws : Nat → Nat) :
    ∀ fuel wn, genWalletNumberFrom st draws fuel = .ok wn →
      (∃ i, wn = walletNumberFromDraw (draws i)) ∧ walletNumberExists st wn = false := by
  intro fuel
  induction fuel with
  | zero => intro wn h; simp [genWalletNumberFrom] at h
  | succ fuel ih =>
      intro wn h
      rw [genWalletNumberFrom] at h
      by_cases hex : walletNumberExists st
          (walletNumberFromDraw (draws (MAX_ATTEMPTS - (fuel + 1)))) = true
      · rw [if_pos hex] at h
        exact ih wn h
      · rw [if_neg hex] at h
        have hwn : wn = walletNumberFromDraw (draws (MAX_ATTEMPTS - (fuel + 1))) := by
          injection h with h'; exact h'.symm
        subst hwn
        exact ⟨⟨MAX_ATTEMPTS - (fuel + 1), rfl⟩, Bool.eq_false_iff.mpr hex⟩

theorem genWalletNumberFrom_error_shape (st : LedgerState) (draws : Nat → Nat) :
    ∀ fuel e, genWalletNumberFrom st draws fuel = .error e →
      e = .internalServer "Failed to generate unique wallet number after maximum attempts" := by
  intro fuel
  induction fuel with
  | zero =>
      intro e h
      rw [genWalletNumberFrom] at h
      injection h with h'; exact h'.symm
  | succ fuel ih =>
      intro e h
      rw [genWalletNumberFrom] at h
      by_cases hex : walletNumberExists st
          (walletNumberFromDraw (draws (MAX_ATTEMPTS - (fuel + 1)))) = true
      · rw [if_pos hex] at h; exact ih e h
      · rw [if_neg hex] at h; simp at h

theorem genWalletNumberFrom_exhaust (st : LedgerState) (draws : Nat → Nat)
    (hall : ∀ i, i < MAX_ATTEMPTS →
      walletNumberExists st (walletNumberFromDraw (draws i)) = true) :
    ∀ fuel, fuel ≤ MAX_ATTEMPTS →
      genWalletNumberFrom st draws fuel =
        .error (.internalServer
          "Failed to generate unique wallet number after maximum attempts") := by
  intro fuel
  induction fuel with
  | zero => intro _; rw [genWalletNumberFrom]
  | succ fuel ih =>
      intro hle
      rw [genWalletNumberFrom,
        if_pos (hall (MAX_ATTEMPTS - (fuel + 1)) (by simp [MAX_ATTEMPTS]; omega))]
      exact ih (by omega)


/-!
Characterization of `creditWalletFromWebhook`.
-/

theorem findWalletById_set_txns (st : LedgerState) (ts : List Txn) (wid : Nat) :
    findWalletById { st with txns := ts } wid = findWalletById st wid := rfl

/-- The credited state produced by the webhook success path. -/
def creditedState (st : LedgerState) (txn : Txn) (w : Wallet) (amt : Int) : LedgerState :=
  { st with
      txns := updateTxnById st.txns txn.id { txn with status := TxStatus.success }
      wallets := updateWalletById st.wallets w.id { w with balance := w.balance + amt } }

/-- On a non-success deposit with matching amount and existing wallet, the
webhook credit succeeds and produces exactly the status-updated,
balance-credited state. -/
theorem creditWalletFromWebhook_ok_eq (st : LedgerState) (ref : String) (amt : Int)
    (txn : Txn) (w : Wallet)
    (hfind : findTxnByReference st ref = some txn)
    (hstatus : txn.status ≠ TxStatus.success)
    (htype : txn.type = TxType.deposit)
    (hamt : txn.amount = amt)
    (hw : findWalletById st txn.walletId = some w) :
    creditWalletFromWebhook ref amt st = .ok (creditedState st txn w amt) := by
  have h1 : (txn.status == TxStatus.success) = false := by
    cases hs : txn.status <;> simp_all
  have h2 : (txn.type == TxType.deposit) = true := by rw [htype]; rfl
  have h3 : (txn.amount == amt) = true := by rw [hamt]; simp
  simp only [creditWalletFromWebhook, hfind, h1, h2, h3, Bool.not_true, Bool.not_false,
    Bool.false_eq_true, if_false, if_true, findWalletById_set_txns, hw, creditedState]

/-- Inversion for a successful webhook credit: either the idempotency
short-circuit fired and the state is unchanged, or the transaction was a
non-success deposit with matching amount and the state is exactly the
credited one. -/
theorem creditWalletFromWebhook_ok_inv (st st' : LedgerState) (ref : String) (amt : Int)
    (h : creditWalletFromWebhook ref amt st = .ok st') :
    st' = st ∨
      ∃ txn w, findTxnByReference st ref = some txn ∧
        txn.status ≠ TxStatus.success ∧ txn.type = TxType.deposit ∧ txn.amount = amt ∧
        findWalletById st txn.walletId = some w ∧ st' = creditedState st txn w amt := by
  cases hfind : findTxnByReference st ref with
  | none =>
      simp only [creditWalletFromWebhook, hfind] at h
      exact Except.noConfusion h
  | some txn =>
      by_cases hs : (txn.status == TxStatus.success) = true
      · simp only [creditWalletFromWebhook, hfind, hs, if_true] at h
        left
        injection h with h'
        exact h'.symm
      · have hs' : (txn.status == TxStatus.success) = false := by
          simpa using hs
        by_cases ht : (txn.type == TxType.deposit) = true
        · by_cases ha : (txn.amount == amt) = true
          · simp only [creditWalletFromWebhook, hfind, hs', ht, ha, Bool.not_true,
              Bool.not_false, Bool.false_eq_true, if_false, if_true,
              findWalletById_set_txns] at h
            cases hw : findWalletById st txn.walletId with
            | none => rw [hw] at h; simp at h
            | some w =>
                rw [hw] at h
                right
                refine ⟨txn, w, rfl, by simpa using hs, by simpa using ht,
                  by simpa using ha, hw, ?_⟩
                simp only [creditedState]
                injection h with h'
                exact h'.symm
          · have ha' : (txn.amount == amt) = false := by simpa using ha
            simp only [creditWalletFromWebhook, hfind, hs', ht, ha', Bool.not_true,
              Bool.not_false, Bool.false_eq_true, if_false, if_true] at h
            exact Except.noConfusion h
        · have ht' : (txn.type == TxType.deposit) = false := by simpa using ht
          simp only [creditWalletFromWebhook, hfind, hs', ht', Bool.not_false,
            Bool.false_eq_true, if_false, if_true] at h
          exact Except.noConfusion h

/-- C1: for a valid pending deposit, `creditWalletFromWebhook` succeeds
and credits the owning wallet by the deposit amount exactly once; the
resulting state is a fixed point of the call, so every subsequent call
with the same reference and amount returns successfully and leaves both
the transaction and the wallet balance unchanged. -/
theorem webhookReconciliationIdempotentC1 (st : LedgerState) (ref : String) (amt : Int)
    (txn : Txn) (w : Wallet)
    (hfind : findTxnByReference st ref = some txn)
    (hstatus : txn.status = TxStatus.pending)
    (htype : txn.type = TxType.deposit)
    (hamt : txn.amount = amt)
    (hw : findWalletById st txn.walletId = some w) :
    ∃ st', creditWalletFromWebhook ref amt st = .ok st' ∧
      walletBalance st txn.walletId = some w.balance ∧
      walletBalance st' txn.walletId = some (w.balance + amt) ∧
      creditWalletFromWebhook ref amt st' = .ok st' := by
  have hns : txn.status ≠ TxStatus.success := by rw [hstatus]; simp
  have hok := creditWalletFromWebhook_ok_eq st ref amt txn w hfind hns htype hamt hw
  have hwid : ((fun x : Wallet => x.id == txn.walletId) w) = true :=
    List.find?_some (p := fun x : Wallet => x.id == txn.walletId) hw
  have href : ((fun t : Txn => t.reference == ref) txn) = true :=
    List.find?_some (p := fun t : Txn => t.reference == ref) hfind
  refine ⟨creditedState st txn w amt, hok, ?_, ?_, ?_⟩
  · rw [walletBalance, hw]; rfl
  · have hfind' : findWalletById (creditedState st txn w amt) txn.walletId =
        some { w with balance := w.balance + amt } := by
      show (updateWalletById st.wallets w.id { w with balance := w.balance + amt }).find?
        (fun x => x.id == txn.walletId) = _
      exact find?_map_update _ _ w _ st.wallets hw (by simp) (by simpa using hwid)
    rw [walletBalance, hfind']; rfl
  · have hfind2 : findTxnByReference (creditedState st txn w amt) ref =
        some { txn with status := TxStatus.success } := by
      show (updateTxnById st.txns txn.id { txn with status := TxStatus.success }).find?
        (fun t => t.reference == ref) = _
      exact find?_map_update _ _ txn _ st.txns hfind (by simp) (by simpa using href)
    simp [creditWalletFromWebhook, hfind2]

/-- Example rows and store used to instantiate the proved theorems. -/
def txnW : Txn :=
  { id := 0, walletId := 1, type := .deposit, amount := 5000, status := .pending,
    reference := "TXN_W", createdAt := 0 }

def walletW : Wallet :=
  { id := 1, userId := "u1", walletNumber := "4510000000", balance := 0 }

def stW : LedgerState :=
  { users := ["u1"], wallets := [walletW], txns := [txnW], nextWalletId := 2, nextTxnId := 1 }

/-- Witness for C1 at a concrete pending deposit of 5000 KOBO. -/
theorem webhookReconciliationIdempotentC1_witness :
    findTxnByReference stW "TXN_W" = some txnW ∧
    txnW.status = TxStatus.pending ∧
    ∃ st', creditWalletFromWebhook "TXN_W" 5000 stW = .ok st' ∧
      walletBalance stW txnW.walletId = some walletW.balance ∧
      walletBalance st' txnW.walletId = some (walletW.balance + 5000) ∧
      creditWalletFromWebhook "TXN_W" 5000 st' = .ok st' :=
  ⟨by decide, by decide,
    webhookReconciliationIdempotentC1 stW "TXN_W" 5000 txnW walletW (by decide) (by decide)
      (by decide) (by decide) (by decide)⟩

/-- A failed deposit row used to exhibit the missing pending-status check
in the webhook reconciliation. -/
def txnC4 : Txn :=
  { id := 0, walletId := 1, type := .deposit, amount := 5000, status := .failed,
    reference := "TXN_F", createdAt := 0 }

def stC4 : LedgerState :=
  { users := ["u1"], wallets := [walletW], txns := [txnC4], nextWalletId := 2, nextTxnId := 1 }

/-- Counterexample to C4: `creditWalletFromWebhook` has no pending-status
check beyond the success short-circuit, so a transaction whose status is
`failed` (deposit type, matching amount) IS transitioned to success and
its wallet IS credited, instead of failing without mutation. -/
theorem webhookFailedDepositCreditedC4_counterexample :
    creditWalletFromWebhook "TXN_F" 5000 stC4 =
      .ok { users := ["u1"],
            wallets := [{ id := 1, userId := "u1", walletNumber := "4510000000",
                          balance := 5000 }],
            txns := [{ id := 0, walletId := 1, type := .deposit, amount := 5000,
                       status := .success, reference := "TXN_F", createdAt := 0 }],
            nextWalletId := 2, nextTxnId := 1 } ∧
    walletBalance stC4 1 = some 0 ∧ txnC4.status = TxStatus.failed :=
  ⟨rfl, by decide, by decide⟩

/-- C4 (amended): in webhook reconciliation, for a transaction looked up
by reference that does not hit the success short-circuit, a wrong type or
a mismatched amount makes `creditWalletFromWebhook` fail with a
BadRequest (InvalidEvent-class) error, and the rolled-back unit of work
performs no mutation; the original claim's further protection of
`failed` transactions does not exist — a failed deposit with matching
amount is credited like a pending one. -/
theorem webhookInvalidEventRejectedC4 (st : LedgerState) (ref : String) (amt : Int)
    (txn : Txn)
    (hfind : findTxnByReference st ref = some txn)
    (hstatus : txn.status ≠ TxStatus.success)
    (hbad : txn.type ≠ TxType.deposit ∨ txn.amount ≠ amt) :
    ∃ m, creditWalletFromWebhook ref amt st = .error (.badRequest m) := by
  have hs' : (txn.status == TxStatus.success) = false := by
    cases h : txn.status <;> simp_all
  by_cases ht : txn.type = TxType.deposit
  · have ha : txn.amount ≠ amt := by tauto
    have ht' : (txn.type == TxType.deposit) = true := by rw [ht]; rfl
    have ha' : (txn.amount == amt) = false := by simp [ha]
    refine ⟨"Amount mismatch", ?_⟩
    simp only [creditWalletFromWebhook, hfind, hs', ht', ha', Bool.not_true, Bool.not_false,
      Bool.false_eq_true, if_false, if_true]
  · have ht' : (txn.type == TxType.deposit) = false := by
      cases h : txn.type <;> simp_all
    refine ⟨"Invalid transaction type", ?_⟩
    simp only [creditWalletFromWebhook, hfind, hs', ht', Bool.not_false,
      Bool.false_eq_true, if_false, if_true]

/-- Witness for the amended C4 at a concrete amount-mismatched webhook
event. -/
theorem webhookInvalidEventRejectedC4_witness :
    findTxnByReference stW "TXN_W" = some txnW ∧
    txnW.status ≠ TxStatus.success ∧ txnW.amount ≠ 4999 ∧
    ∃ m, creditWalletFromWebhook "TXN_W" 4999 stW = .error (.badRequest m) :=
  ⟨by decide, by decide, by decide,
    webhookInvalidEventRejectedC4 stW "TXN_W" 4999 txnW (by decide) (by decide)
      (Or.inr (by decide))⟩

/-- C2: a completed transfer between two distinct wallets debits the
sender by exactly the amount, credits the recipient by exactly the
amount — so the sum of the two balances is invariant — and returns the id
of the `transfer_out` transaction row as the canonical identifier. -/
theorem transferConservationC2 (st st' : LedgerState) (userId recipNum ref : String)
    (amt : Int) (txId : Nat)
    (huniq : st.wallets.Pairwise (fun a b => a.id ≠ b.id))
    (hok : transfer userId recipNum amt ref st = .ok (st', txId)) :
    ∃ sW rW, findWalletByUserId st userId = some sW ∧
      findWalletByNumber st recipNum = some rW ∧ sW.id ≠ rW.id ∧
      walletBalance st sW.id = some sW.balance ∧
      walletBalance st rW.id = some rW.balance ∧
      walletBalance st' sW.id = some (sW.balance - amt) ∧
      walletBalance st' rW.id = some (rW.balance + amt) ∧
      (sW.balance - amt) + (rW.balance + amt) = sW.balance + rW.balance ∧
      ∃ t ∈ st'.txns, t.id = txId ∧ t.type = TxType.transfer_out ∧
        t.walletId = sW.id ∧ t.amount = amt ∧ t.status = TxStatus.success := by
  by_cases h1 : amt < 100
  · simp only [transfer, if_pos h1] at hok
    exact Except.noConfusion hok
  cases hsW : findWalletByUserId st userId with
  | none =>
      simp only [transfer, if_neg h1, hsW] at hok
      exact Except.noConfusion hok
  | some sW =>
  by_cases h2 : (sW.walletNumber == recipNum) = true
  · simp only [transfer, if_neg h1, hsW, h2, if_true] at hok
    exact Except.noConfusion hok
  have h2' : (sW.walletNumber == recipNum) = false := by simpa using h2
  cases hrW : findWalletByNumber st recipNum with
  | none =>
      simp only [transfer, if_neg h1, hsW, h2', Bool.false_eq_true, if_false, hrW] at hok
      exact Except.noConfusion hok
  | some rW =>
  by_cases h3 : sW.balance < amt
  · simp only [transfer, if_neg h1, hsW, h2', Bool.false_eq_true, if_false, hrW,
      if_pos h3] at hok
    exact Except.noConfusion hok
  have hMemS : sW ∈ st.wallets := List.mem_of_find?_eq_some hsW
  have hMemR : rW ∈ st.wallets := List.mem_of_find?_eq_some hrW
  have hfindS : st.wallets.find? (fun x => x.id == sW.id) = some sW :=
    find?_by_id_of_unique st.wallets sW huniq hMemS
  have hfindR : st.wallets.find? (fun x => x.id == rW.id) = some rW :=
    find?_by_id_of_unique st.wallets rW huniq hMemR
  have hfindS' : findWalletById st sW.id = some sW := hfindS
  have hfindR' : findWalletById st rW.id = some rW := hfindR
  have hrnum : (rW.walletNumber == recipNum) = true :=
    List.find?_some (p := fun w : Wallet => w.walletNumber == recipNum) hrW
  have hne : sW.id ≠ rW.id := by
    intro he
    have heq : rW = sW :=
      eq_of_mem_of_find?_id st.wallets sW rW sW.id huniq hfindS hMemR he.symm
    rw [heq] at hrnum
    rw [hrnum] at h2'
    exact Bool.noConfusion h2'
  by_cases h5 : (txnReferenceExists st (ref ++ "_OUT")
      || txnReferenceExists st (ref ++ "_IN")) = true
  · simp only [transfer, if_neg h1, hsW, h2', Bool.false_eq_true, if_false, hrW,
      if_neg h3, hfindS', hfindR', h5, if_true] at hok
    exact Except.noConfusion hok
  have h5' : (txnReferenceExists st (ref ++ "_OUT")
      || txnReferenceExists st (ref ++ "_IN")) = false := by simpa using h5
  simp only [transfer, if_neg h1, hsW, h2', Bool.false_eq_true, if_false, hrW,
    if_neg h3, hfindS', hfindR', h5', if_true] at hok
  injection hok with hok'
  rw [Prod.ext_iff] at hok'
  obtain ⟨hst, htx⟩ := hok'
  subst hst
  subst htx
  refine ⟨sW, rW, rfl, rfl, hne, ?_, ?_, ?_, ?_, by ring, ?_⟩
  · rw [walletBalance, hfindS']; rfl
  · rw [walletBalance, hfindR']; rfl
  · have houter : (updateWalletById
        (updateWalletById st.wallets sW.id { sW with balance := sW.balance - amt })
        rW.id { rW with balance := rW.balance + amt }).find?
          (fun x => x.id == sW.id) =
        (updateWalletById st.wallets sW.id { sW with balance := sW.balance - amt }).find?
          (fun x => x.id == sW.id) :=
      find?_map_update_ne _ _ _ _ (by simp [Ne.symm hne])
        (fun x hx => by
          have : x.id = rW.id := by simpa using hx
          simp [this, Ne.symm hne])
    have hinner : (updateWalletById st.wallets sW.id
        { sW with balance := sW.balance - amt }).find? (fun x => x.id == sW.id) =
        some { sW with balance := sW.balance - amt } :=
      find?_map_update _ _ sW _ st.wallets hfindS (by simp) (by simp)
    rw [walletBalance]
    show ((updateWalletById (updateWalletById st.wallets sW.id _) rW.id _).find?
      (fun x => x.id == sW.id)).map (fun w => w.balance) = _
    rw [houter, hinner]
    rfl
  · have hinner : (updateWalletById st.wallets sW.id
        { sW with balance := sW.balance - amt }).find? (fun x => x.id == rW.id) =
        st.wallets.find? (fun x => x.id == rW.id) :=
      find?_map_update_ne _ _ _ _ (by simp [hne])
        (fun x hx => by
          have : x.id = sW.id := by simpa using hx
          simp [this, hne])
    have houter : (updateWalletById
        (updateWalletById st.wallets sW.id { sW with balance := sW.balance - amt })
        rW.id { rW with balance := rW.balance + amt }).find?
          (fun x => x.id == rW.id) = some { rW with balance := rW.balance + amt } :=
      find?_map_update _ _ rW _ _ (hinner.trans hfindR) (by simp) (by simp)
    rw [walletBalance]
    show ((updateWalletById (updateWalletById st.wallets sW.id _) rW.id _).find?
      (fun x => x.id == rW.id)).map (fun w => w.balance) = _
    rw [houter]
    rfl
  · refine ⟨{ id := st.nextTxnId, walletId := sW.id, type := .transfer_out, amount := amt, status := .success, reference := ref ++ "_OUT", createdAt := st.nextTxnId }, ?_, rfl, rfl, rfl, rfl, rfl⟩
    simp

/-- Two funded wallets used to instantiate the transfer theorems. -/
def stT : LedgerState :=
  { users := ["u1", "u2"],
    wallets := [{ id := 0, userId := "u1", walletNumber := "4510000000", balance := 10000 },
                { id := 1, userId := "u2", walletNumber := "4520000000", balance := 10000 }],
    txns := [], nextWalletId := 2, nextTxnId := 0 }

/-- The state after transferring 3000 KOBO from u1 to u2 in `stT`. -/
def stT' : LedgerState :=
  { users := ["u1", "u2"],
    wallets := [{ id := 0, userId := "u1", walletNumber := "4510000000", balance := 7000 },
                { id := 1, userId := "u2", walletNumber := "4520000000", balance := 13000 }],
    txns := [{ id := 0, walletId := 0, type := .transfer_out, amount := 3000,
               status := .success, reference := "TRF_W_OUT", createdAt := 0 },
             { id := 1, walletId := 1, type := .transfer_in, amount := 3000,
               status := .success, reference := "TRF_W_IN", createdAt := 0 }],
    nextWalletId := 2, nextTxnId := 2 }

/-- Witness for C2 at a concrete 3000-KOBO transfer. -/
theorem transferConservationC2_witness :
    stT.wallets.Pairwise (fun a b => a.id ≠ b.id) ∧
    transfer "u1" "4520000000" 3000 "TRF_W" stT = .ok (stT', 0) ∧
    (∃ sW rW, findWalletByUserId stT "u1" = some sW ∧
      findWalletByNumber stT "4520000000" = some rW ∧ sW.id ≠ rW.id ∧
      walletBalance stT sW.id = some sW.balance ∧
      walletBalance stT rW.id = some rW.balance ∧
      walletBalance stT' sW.id = some (sW.balance - 3000) ∧
      walletBalance stT' rW.id = some (rW.balance + 3000) ∧
      (sW.balance - 3000) + (rW.balance + 3000) = sW.balance + rW.balance ∧
      ∃ t ∈ stT'.txns, t.id = 0 ∧ t.type = TxType.transfer_out ∧
        t.walletId = sW.id ∧ t.amount = 3000 ∧ t.status = TxStatus.success) :=
  ⟨by decide, rfl,
    transferConservationC2 stT stT' "u1" "4520000000" "TRF_W" 3000 0 (by decide) rfl⟩

/-- Counterexample to C6: the two pessimistic locks in `transfer` are
taken sender first, then recipient — not in a fixed total order over
wallet ids — so the transfers u1→u2 and u2→u1 over the same wallet pair
acquire the two locks in opposite sequences. -/
theorem transferLockOrderC6_counterexample :
    transferLockTrace "u1" "4520000000" 3000 stT = some [0, 1] ∧
    transferLockTrace "u2" "4510000000" 3000 stT = some [1, 0] ∧
    ([0, 1] : List Nat) ≠ [1, 0] := by
  decide

/-- C6 (amended): inside the atomic section `transfer` acquires the two
exclusive wallet locks in request order — sender's wallet row first, then
the recipient's — regardless of the wallets' ids; there is no fixed total
order over wallet identifiers, so opposite-direction transfers over the
same pair acquire the locks in reversed sequences. -/
theorem transferLocksSenderFirstC6 (userId recipNum : String) (amt : Int)
    (st : LedgerState) (sW rW : Wallet)
    (hsW : findWalletByUserId st userId = some sW)
    (hrW : findWalletByNumber st recipNum = some rW)
    (h1 : ¬ amt < 100)
    (h2 : (sW.walletNumber == recipNum) = false)
    (h3 : ¬ sW.balance < amt) :
    transferLockTrace userId recipNum amt st =
      some (transferLockAcquisitionOrder sW.id rW.id) := by
  simp only [transferLockTrace, if_neg h1, hsW, h2, Bool.false_eq_true, if_false, hrW,
    if_neg h3]

/-- Witness for the amended C6 on concrete wallets with ids 0 and 1. -/
theorem transferLocksSenderFirstC6_witness :
    findWalletByUserId stT "u2" = some { id := 1, userId := "u2", walletNumber := "4520000000", balance := 10000 } ∧
    transferLockTrace "u2" "4510000000" 3000 stT =
      some (transferLockAcquisitionOrder 1 0) :=
  ⟨by decide,
    transferLocksSenderFirstC6 "u2" "4510000000" 3000 stT
      { id := 1, userId := "u2", walletNumber := "4520000000", balance := 10000 }
      { id := 0, userId := "u1", walletNumber := "4510000000", balance := 10000 }
      (by decide) (by decide) (by decide) (by decide) (by decide)⟩

/-- C9: for every wallet and every requested page and page size, listing
transactions returns rows of the caller's wallet in reverse-chronological
order (newest first by `createdAt`), and the returned page never exceeds
100 rows regardless of the caller-supplied limit. -/
theorem listTransactionsClampedDescC9 (userId : String) (page limit : Int)
    (st : LedgerState) (res : List Txn)
    (hok : getTransactions userId page limit st = .ok res) :
    res.length ≤ 100 ∧
    res.Pairwise (fun a b => b.createdAt ≤ a.createdAt) ∧
    ∃ w, findWalletByUserId st userId = some w ∧ ∀ t ∈ res, t.walletId = w.id := by
  cases hw : findWalletByUserId st userId with
  | none =>
      simp only [getTransactions, hw] at hok
      exact Except.noConfusion hok
  | some w =>
      simp only [getTransactions, hw] at hok
      injection hok with h'
      have hsub : List.Sublist res
          (sortByCreatedAtDesc (st.txns.filter (fun t => t.walletId == w.id))) := by
        rw [← h']
        exact List.Sublist.trans (List.take_sublist _ _) (List.drop_sublist _ _)
      refine ⟨?_, ?_, w, rfl, ?_⟩
      · have hlen : res.length ≤ (min 100 (max 1 limit)).toNat := by
          rw [← h', List.length_take]
          exact Nat.min_le_left _ _
        have h100 : (min 100 (max 1 limit)).toNat ≤ (100 : Int).toNat :=
          Int.toNat_le_toNat (min_le_left _ _)
        exact le_trans hlen h100
      · exact List.Pairwise.sublist hsub (pairwise_sortByCreatedAtDesc _)
      · intro t ht
        have ht2 := mem_sortByCreatedAtDesc t _ (hsub.subset ht)
        have := List.of_mem_filter ht2
        simpa using this

/-- Witness data for C9: a two-transaction wallet listed with an
oversized requested limit. -/
def stL : LedgerState :=
  { users := ["u1"],
    wallets := [{ id := 0, userId := "u1", walletNumber := "4510000000", balance := 0 }],
    txns := [{ id := 0, walletId := 0, type := .deposit, amount := 5000,
               status := .success, reference := "TXN_1", createdAt := 0 },
             { id := 1, walletId := 0, type := .deposit, amount := 7000,
               status := .pending, reference := "TXN_2", createdAt := 1 }],
    nextWalletId := 1, nextTxnId := 2 }

/-- The page C9's witness store returns: newest first. -/
def getTransactionsWitnessList : List Txn :=
  [{ id := 1, walletId := 0, type := .deposit, amount := 7000, status := .pending, reference := "TXN_2", createdAt := 1 },
   { id := 0, walletId := 0, type := .deposit, amount := 5000, status := .success, reference := "TXN_1", createdAt := 0 }]

/-- Witness for C9. -/
theorem listTransactionsClampedDescC9_witness :
    getTransactions "u1" 1 1000 stL = .ok getTransactionsWitnessList ∧
    ((getTransactionsWitnessList).length ≤ 100 ∧
      (getTransactionsWitnessList).Pairwise (fun a b => b.createdAt ≤ a.createdAt) ∧
      ∃ w, findWalletByUserId stL "u1" = some w ∧
        ∀ t ∈ getTransactionsWitnessList, t.walletId = w.id) :=
  ⟨rfl, listTransactionsClampedDescC9 "u1" 1 1000 stL getTransactionsWitnessList rfl⟩

/-- C10: the deposit-status endpoint's result depends only on the
reference, not on the identity of the authenticated caller — any
principal passing the `read` permission gate gets exactly the service
lookup keyed on the reference, so two different read-authorized
principals always observe the same answer (including for deposits on
other users' wallets; no ownership check exists). -/
theorem depositStatusCallerIndependentC10 (p1 p2 : Principal) (ref : String)
    (st : LedgerState)
    (h1 : permissionsGuardAllows ["read"] p1 = true)
    (h2 : permissionsGuardAllows ["read"] p2 = true) :
    getDepositStatusEndpoint p1 ref st = getDepositStatus ref st ∧
    getDepositStatusEndpoint p1 ref st = getDepositStatusEndpoint p2 ref st := by
  simp only [getDepositStatusEndpoint, h1, h2, if_true, and_self]

/-- Witness for C10: a JWT principal owning the wallet and an API-key
principal for a different user both query the same deposit reference. -/
theorem depositStatusCallerIndependentC10_witness :
    permissionsGuardAllows ["read"] { authType := .jwt, userId := "u1", permissions := [] } = true ∧
    permissionsGuardAllows ["read"] { authType := .apiKey, userId := "other-user", permissions := ["read"] } = true ∧
    (getDepositStatusEndpoint { authType := .jwt, userId := "u1", permissions := [] } "TXN_W" stW = getDepositStatus "TXN_W" stW ∧
     getDepositStatusEndpoint { authType := .jwt, userId := "u1", permissions := [] } "TXN_W" stW =
       getDepositStatusEndpoint { authType := .apiKey, userId := "other-user", permissions := ["read"] } "TXN_W" stW) :=
  ⟨by decide, by decide,
    depositStatusCallerIndependentC10
      { authType := .jwt, userId := "u1", permissions := [] }
      { authType := .apiKey, userId := "other-user", permissions := ["read"] }
      "TXN_W" stW (by decide) (by decide)⟩

/-- C7: wallet-number issuance checks each candidate against the store
before returning it and retries at most `MAX_ATTEMPTS = 10` times with
fresh draws: for every sequence of collision outcomes it either returns a
fresh number — a 10-character all-digit string starting with `45` — or,
once every attempt has collided, fails with the bounded-exhaustion
internal error instead of looping. -/
theorem walletNumberIssuanceBoundedC7 (st : LedgerState) (draws : Nat → Nat)
    (hd : ∀ i, 10000000 ≤ draws i ∧ draws i ≤ 99999999) :
    ((∃ wn, generateUniqueWalletNumber st draws = .ok wn ∧
        wn.data.length = 10 ∧ wn.data.take 2 = ['4', '5'] ∧
        (∀ c ∈ wn.data, c.isDigit = true) ∧ walletNumberExists st wn = false) ∨
      generateUniqueWalletNumber st draws =
        .error (.internalServer
          "Failed to generate unique wallet number after maximum attempts")) ∧
    ((∀ i, i < 10 → walletNumberExists st (walletNumberFromDraw (draws i)) = true) →
      generateUniqueWalletNumber st draws =
        .error (.internalServer
          "Failed to generate unique wallet number after maximum attempts")) := by
  constructor
  · cases h : generateUniqueWalletNumber st draws with
    | ok wn =>
        left
        obtain ⟨⟨i, hwn⟩, hex⟩ := genWalletNumberFrom_ok st draws MAX_ATTEMPTS wn h
        subst hwn
        obtain ⟨hlo, hhi⟩ := hd i
        have hlen : (decimalDigits (draws i)).length = 8 :=
          decimalDigits_length 7 (draws i) (by norm_num; omega) (by norm_num; omega)
        refine ⟨walletNumberFromDraw (draws i), rfl, ?_, rfl, ?_, hex⟩
        · show ('4' :: '5' :: decimalDigits (draws i)).length = 10
          simp [hlen]
        · intro c hc
          have hc' : c ∈ '4' :: '5' :: decimalDigits (draws i) := hc
          rcases List.mem_cons.mp hc' with rfl | hc2
          · decide
          · rcases List.mem_cons.mp hc2 with rfl | hc3
            · decide
            · exact decimalDigits_isDigit (draws i) c hc3
    | error e =>
        right
        rw [genWalletNumberFrom_error_shape st draws MAX_ATTEMPTS e h]
  · intro hall
    exact genWalletNumberFrom_exhaust st draws (fun i hi => hall i hi) MAX_ATTEMPTS le_rfl

/-- Witness for C7 with the constant lower-bound draw on the empty
store. -/
theorem walletNumberIssuanceBoundedC7_witness :
    (∀ i : Nat, 10000000 ≤ (fun _ : Nat => 10000000) i ∧
      (fun _ : Nat => 10000000) i ≤ 99999999) ∧
    (((∃ wn, generateUniqueWalletNumber initState (fun _ => 10000000) = .ok wn ∧
        wn.data.length = 10 ∧ wn.data.take 2 = ['4', '5'] ∧
        (∀ c ∈ wn.data, c.isDigit = true) ∧
        walletNumberExists initState wn = false) ∨
      generateUniqueWalletNumber initState (fun _ => 10000000) =
        .error (.internalServer
          "Failed to generate unique wallet number after maximum attempts")) ∧
    ((∀ i, i < 10 →
        walletNumberExists initState (walletNumberFromDraw ((fun _ : Nat => 10000000) i)) = true) →
      generateUniqueWalletNumber initState (fun _ => 10000000) =
        .error (.internalServer
          "Failed to generate unique wallet number after maximum attempts"))) :=
  ⟨fun i => ⟨by norm_num, by norm_num⟩,
    walletNumberIssuanceBoundedC7 initState (fun _ => 10000000)
      (fun i => ⟨by norm_num, by norm_num⟩)⟩

/-- A concrete injective keyed-digest instance used to exhibit which
bytes the two webhook handlers feed to the MAC primitive. -/
def macEx (secret s : String) : String := secret ++ ":" ++ s

/-- A raw webhook body with insignificant whitespace: parses to the same
payload as its canonical serialization but is not byte-identical to it. -/
def rawEx : String := "\x7b\"amount\": 5\x7d"

/-- Counterexample to C5: the `JSON.stringify` controller variant
recomputes the MAC over a re-serialization of the parsed payload, not
over the exact raw bytes — on a genuinely signed delivery whose raw bytes
contain insignificant whitespace it rejects with Unauthorized, while the
rawBody variant accepts the same delivery. -/
theorem webhookRawBytesC5_counterexample :
    stringifyPayload 5 ≠ rawEx ∧
    parsePayload rawEx = some 5 ∧
    webhookSignatureGateV1 macEx "sk" (macEx "sk" rawEx) rawEx =
      .error (.unauthorizedE "Invalid signature") ∧
    webhookSignatureGateV2 macEx "sk" (macEx "sk" rawEx) rawEx = .ok rawEx :=
  ⟨by decide, by decide, rfl, rfl⟩

/-- C5 (amended): the rawBody webhook variant verifies the MAC over
exactly the received raw bytes and rejects a mismatch with Unauthorized
before any ledger access; the `JSON.stringify` variant instead verifies
over the canonical re-serialization of the parsed payload (and the first
service variant compares digests with plain string equality rather than
`timingSafeEqual`), so the raw-bytes guarantee holds only for the rawBody
variant. -/
theorem webhookSignatureRawBytesC5 (mac : String → String → String)
    (secret sig raw : String) (hraw : raw ≠ "") (hsig : sig ≠ "") :
    (mac secret raw = sig → webhookSignatureGateV2 mac secret sig raw = .ok raw) ∧
    (mac secret raw ≠ sig → webhookSignatureGateV2 mac secret sig raw =
      .error (.unauthorizedE "Invalid webhook signature")) ∧
    (∀ p, parsePayload raw = some p →
      (webhookSignatureGateV1 mac secret sig raw = .ok (stringifyPayload p) ↔
        mac secret (stringifyPayload p) = sig)) := by
  have hsig' : (sig == "") = false := by rw [beq_eq_false_iff_ne]; exact hsig
  have hraw' : (raw == "") = false := by rw [beq_eq_false_iff_ne]; exact hraw
  refine ⟨?_, ?_, ?_⟩
  · intro h
    have hm : (mac secret raw == sig) = true := by simp [h]
    simp only [webhookSignatureGateV2, verifyWebhookSignatureV2, hraw', hsig', hm,
      Bool.false_eq_true, if_false, if_true]
  · intro h
    have hm : (mac secret raw == sig) = false := by rw [beq_eq_false_iff_ne]; exact h
    simp only [webhookSignatureGateV2, verifyWebhookSignatureV2, hraw', hsig', hm,
      Bool.false_eq_true, if_false, if_true]
  · intro p hp
    constructor
    · intro h
      by_cases hv : verifyWebhookSignatureV1 mac secret sig (stringifyPayload p) = true
      · simp only [verifyWebhookSignatureV1, hsig', Bool.false_eq_true, if_false] at hv
        simpa using hv
      · simp only [webhookSignatureGateV1, hp] at h
        rw [if_neg hv] at h
        exact Except.noConfusion h
    · intro h
      have hv : verifyWebhookSignatureV1 mac secret sig (stringifyPayload p) = true := by
        simp only [verifyWebhookSignatureV1, hsig', Bool.false_eq_true, if_false]
        simp [h]
      simp only [webhookSignatureGateV1, hp, hv, if_true]

/-- Witness for the amended C5 on a genuinely signed whitespace-free
delivery. -/
theorem webhookSignatureRawBytesC5_witness :
    stringifyPayload 7 ≠ "" ∧ macEx "sk" (stringifyPayload 7) ≠ "" ∧
    ((macEx "sk" (stringifyPayload 7) = macEx "sk" (stringifyPayload 7) →
      webhookSignatureGateV2 macEx "sk" (macEx "sk" (stringifyPayload 7))
        (stringifyPayload 7) = .ok (stringifyPayload 7)) ∧
    (macEx "sk" (stringifyPayload 7) ≠ macEx "sk" (stringifyPayload 7) →
      webhookSignatureGateV2 macEx "sk" (macEx "sk" (stringifyPayload 7))
        (stringifyPayload 7) = .error (.unauthorizedE "Invalid webhook signature")) ∧
    (∀ p, parsePayload (stringifyPayload 7) = some p →
      (webhookSignatureGateV1 macEx "sk" (macEx "sk" (stringifyPayload 7))
          (stringifyPayload 7) = .ok (stringifyPayload p) ↔
        macEx "sk" (stringifyPayload p) = macEx "sk" (stringifyPayload 7)))) :=
  ⟨by decide, by decide,
    webhookSignatureRawBytesC5 macEx "sk" (macEx "sk" (stringifyPayload 7))
      (stringifyPayload 7) (by decide) (by decide)⟩

/-!
Reachability invariant of the ledger state machine.
-/

/-- Every stored wallet balance is non-negative. -/
def balancesNonneg (st : LedgerState) : Prop := ∀ w ∈ st.wallets, 0 ≤ w.balance

/-- Every stored transaction amount is positive. -/
def txnAmountsPositive (st : LedgerState) : Prop := ∀ t ∈ st.txns, 0 < t.amount

/-- Stored wallet ids are pairwise distinct. -/
def walletIdsUnique (st : LedgerState) : Prop :=
  st.wallets.Pairwise (fun a b => a.id ≠ b.id)

/-- Each owner has at most one wallet (the `wallets.user_id` unique
index). -/
def walletOwnersUnique (st : LedgerState) : Prop :=
  st.wallets.Pairwise (fun a b => a.userId ≠ b.userId)

/-- Stored wallet ids are below the allocation counter. -/
def walletIdsBounded (st : LedgerState) : Prop :=
  ∀ w ∈ st.wallets, w.id < st.nextWalletId

/-- The inductive invariant of the datastore. -/
def LedgerInv (st : LedgerState) : Prop :=
  balancesNonneg st ∧ txnAmountsPositive st ∧ walletIdsUnique st ∧
    walletOwnersUnique st ∧ walletIdsBounded st

theorem ledgerInv_initState : LedgerInv initState := by
  refine ⟨?_, ?_, ?_, ?_, ?_⟩ <;>
    simp [balancesNonneg, txnAmountsPositive, walletIdsUnique, walletOwnersUnique,
      walletIdsBounded, initState]

theorem createWallet_preserves (uid : String) (draws : Nat → Nat)
    (st st' : LedgerState) (w : Wallet)
    (h : createWallet uid draws st = .ok (st', w)) (hinv : LedgerInv st) :
    LedgerInv st' := by
  obtain ⟨hbal, hamt, hids, howners, hbound⟩ := hinv
  cases hgen : generateUniqueWalletNumber st draws with
  | error e =>
      simp only [createWallet, hgen] at h
      exact Except.noConfusion h
  | ok wn =>
  by_cases hd1 : (st.wallets.any (fun x => x.userId == uid)) = true
  · simp only [createWallet, hgen, hd1, if_true] at h
    exact Except.noConfusion h
  have hd1' : (st.wallets.any (fun x => x.userId == uid)) = false := by simpa using hd1
  by_cases hd2 : (st.wallets.any (fun x => x.walletNumber == wn)) = true
  · simp only [createWallet, hgen, hd1', hd2, Bool.false_eq_true, if_false, if_true] at h
    exact Except.noConfusion h
  have hd2' : (st.wallets.any (fun x => x.walletNumber == wn)) = false := by simpa using hd2
  simp only [createWallet, hgen, hd1', hd2', Bool.false_eq_true, if_false] at h
  injection h with h'
  rw [Prod.ext_iff] at h'
  obtain ⟨hst, hww⟩ := h'
  subst hst
  refine ⟨?_, hamt, ?_, ?_, ?_⟩
  · intro x hx
    rcases List.mem_append.mp hx with hx1 | hx2
    · exact hbal x hx1
    · rw [List.mem_singleton] at hx2
      subst hx2
      exact le_refl 0
  · rw [walletIdsUnique, List.pairwise_append]
    refine ⟨hids, List.pairwise_singleton _ _, ?_⟩
    intro a ha b hb
    rw [List.mem_singleton] at hb
    subst hb
    exact Nat.ne_of_lt (hbound a ha)
  · rw [walletOwnersUnique, List.pairwise_append]
    refine ⟨howners, List.pairwise_singleton _ _, ?_⟩
    intro a ha b hb
    rw [List.mem_singleton] at hb
    subst hb
    intro he
    have hp : (a.userId == uid) = true := by simpa using he
    have hany : (st.wallets.any (fun x => x.userId == uid)) = true :=
      List.any_eq_true.mpr ⟨a, ha, hp⟩
    rw [hany] at hd1'
    exact Bool.noConfusion hd1'
  · intro x hx
    rcases List.mem_append.mp hx with hx1 | hx2
    · exact Nat.lt_succ_of_lt (hbound x hx1)
    · rw [List.mem_singleton] at hx2
      subst hx2
      exact Nat.lt_succ_self _

theorem initializeDeposit_preserves (uid : String) (amt : Int) (ref : String) (g : Bool)
    (st : LedgerState) (hinv : LedgerInv st) :
    LedgerInv (initializeDeposit uid amt ref g st).1 := by
  obtain ⟨hbal, hamt, hids, howners, hbound⟩ := hinv
  by_cases h1 : amt ≤ 0
  · simp only [initializeDeposit, if_pos h1]
    exact ⟨hbal, hamt, hids, howners, hbound⟩
  by_cases h2 : amt < 100
  · simp only [initializeDeposit, if_neg h1, if_pos h2]
    exact ⟨hbal, hamt, hids, howners, hbound⟩
  by_cases h3 : (st.users.contains uid) = true
  · cases hw : findWalletByUserId st uid with
    | none =>
        simp only [initializeDeposit, if_neg h1, if_neg h2, h3, Bool.not_true,
          Bool.false_eq_true, if_false, hw]
        exact ⟨hbal, hamt, hids, howners, hbound⟩
    | some w =>
        by_cases h4 : txnReferenceExists st ref = true
        · simp only [initializeDeposit, if_neg h1, if_neg h2, h3, Bool.not_true,
            Bool.false_eq_true, if_false, hw, h4, if_true]
          exact ⟨hbal, hamt, hids, howners, hbound⟩
        · have h4' : txnReferenceExists st ref = false := by simpa using h4
          have hamt' : txnAmountsPositive
              { st with
                  txns := st.txns ++ [{ id := st.nextTxnId, walletId := w.id, type := .deposit, amount := amt, status := .pending, reference := ref, createdAt := st.nextTxnId }]
                  nextTxnId := st.nextTxnId + 1 } := by
            intro t ht
            rcases List.mem_append.mp ht with ht1 | ht2
            · exact hamt t ht1
            · rw [List.mem_singleton] at ht2
              subst ht2
              simp only
              omega
          simp only [initializeDeposit, if_neg h1, if_neg h2, h3, Bool.not_true,
            Bool.false_eq_true, if_false, hw, h4', if_true]
          cases g with
          | true =>
              simp only [if_true]
              exact ⟨hbal, hamt', hids, howners, hbound⟩
          | false =>
              simp only [Bool.false_eq_true, if_false]
              refine ⟨hbal, ?_, hids, howners, hbound⟩
              intro t ht
              rcases mem_map_update _ _ _ t ht with rfl | ht2
              · simp only
                omega
              · exact hamt' t ht2
  · have h3' : (st.users.contains uid) = false := by simpa using h3
    simp only [initializeDeposit, if_neg h1, if_neg h2, h3', Bool.not_false, if_true]
    exact ⟨hbal, hamt, hids, howners, hbound⟩

theorem transfer_preserves (uid num ref : String) (amt : Int) (st st' : LedgerState)
    (tid : Nat) (h : transfer uid num amt ref st = .ok (st', tid))
    (hinv : LedgerInv st) : LedgerInv st' := by
  obtain ⟨hbal, hamt, hids, howners, hbound⟩ := hinv
  by_cases h1 : amt < 100
  · simp only [transfer, if_pos h1] at h
    exact Except.noConfusion h
  cases hsW : findWalletByUserId st uid with
  | none =>
      simp only [transfer, if_neg h1, hsW] at h
      exact Except.noConfusion h
  | some sW =>
  by_cases h2 : (sW.walletNumber == num) = true
  · simp only [transfer, if_neg h1, hsW, h2, if_true] at h
    exact Except.noConfusion h
  have h2' : (sW.walletNumber == num) = false := by simpa using h2
  cases hrW : findWalletByNumber st num with
  | none =>
      simp only [transfer, if_neg h1, hsW, h2', Bool.false_eq_true, if_false, hrW] at h
      exact Except.noConfusion h
  | some rW =>
  by_cases h3 : sW.balance < amt
  · simp only [transfer, if_neg h1, hsW, h2', Bool.false_eq_true, if_false, hrW,
      if_pos h3] at h
    exact Except.noConfusion h
  have hMemS : sW ∈ st.wallets := List.mem_of_find?_eq_some hsW
  have hMemR : rW ∈ st.wallets := List.mem_of_find?_eq_some hrW
  have hfindS : st.wallets.find? (fun x => x.id == sW.id) = some sW :=
    find?_by_id_of_unique st.wallets sW hids hMemS
  have hfindR : st.wallets.find? (fun x => x.id == rW.id) = some rW :=
    find?_by_id_of_unique st.wallets rW hids hMemR
  have hfindS' : findWalletById st sW.id = some sW := hfindS
  have hfindR' : findWalletById st rW.id = some rW := hfindR
  have hrnum : (rW.walletNumber == num) = true :=
    List.find?_some (p := fun w : Wallet => w.walletNumber == num) hrW
  have hne : sW.id ≠ rW.id := by
    intro he
    have heq : rW = sW :=
      eq_of_mem_of_find?_id st.wallets sW rW sW.id hids hfindS hMemR he.symm
    rw [heq] at hrnum
    rw [hrnum] at h2'
    exact Bool.noConfusion h2'
  by_cases h5 : (txnReferenceExists st (ref ++ "_OUT")
      || txnReferenceExists st (ref ++ "_IN")) = true
  · simp only [transfer, if_neg h1, hsW, h2', Bool.false_eq_true, if_false, hrW,
      if_neg h3, hfindS', hfindR', h5, if_true] at h
    exact Except.noConfusion h
  have h5' : (txnReferenceExists st (ref ++ "_OUT")
      || txnReferenceExists st (ref ++ "_IN")) = false := by simpa using h5
  simp only [transfer, if_neg h1, hsW, h2', Bool.false_eq_true, if_false, hrW,
    if_neg h3, hfindS', hfindR', h5', if_true] at h
  injection h with h'
  rw [Prod.ext_iff] at h'
  obtain ⟨hst, htx⟩ := h'
  subst hst
  have h100 : (100 : Int) ≤ amt := by omega
  refine ⟨?_, ?_, ?_, ?_, ?_⟩
  · intro x hx
    rcases mem_map_update _ _ _ x hx with rfl | hx1
    · have hb := hbal rW hMemR
      simp only
      omega
    · rcases mem_map_update _ _ _ x hx1 with rfl | hx2
      · have hb := hbal sW hMemS
        simp only
        omega
      · exact hbal x hx2
  · intro t ht
    rcases List.mem_append.mp ht with ht1 | ht2
    · exact hamt t ht1
    · rcases List.mem_cons.mp ht2 with rfl | ht3
      · simp only
        omega
      · rw [List.mem_singleton] at ht3
        subst ht3
        simp only
        omega
  · apply pairwise_ne_map_of_eq_on
    · intro x hx
      by_cases hc : (x.id == rW.id) = true
      · rw [if_pos hc]
        have hxr : x.id = rW.id := by simpa using hc
        exact hxr.symm
      · rw [if_neg hc]
    · apply pairwise_ne_map_of_eq_on
      · intro x hx
        by_cases hc : (x.id == sW.id) = true
        · rw [if_pos hc]
          have hxs : x.id = sW.id := by simpa using hc
          exact hxs.symm
        · rw [if_neg hc]
      · exact hids
  · apply pairwise_ne_map_of_eq_on
    · intro x hx
      by_cases hc : (x.id == rW.id) = true
      · rw [if_pos hc]
        obtain ⟨y, hy, hyx⟩ := List.mem_map.mp hx
        have hyid : y.id = x.id := by
          rw [← hyx]
          by_cases hcy : (y.id == sW.id) = true
          · rw [if_pos hcy]
            simpa using hcy
          · rw [if_neg hcy]
        have hyrid : y.id = rW.id := by
          have : x.id = rW.id := by simpa using hc
          omega
        have hyr : y = rW := eq_of_mem_of_find?_id st.wallets rW y rW.id hids hfindR hy hyrid
        have hxr : x = rW := by
          rw [← hyx, hyr, if_neg (by simpa using Ne.symm hne)]
        rw [hxr]
      · rw [if_neg hc]
    · apply pairwise_ne_map_of_eq_on
      · intro x hx
        by_cases hc : (x.id == sW.id) = true
        · rw [if_pos hc]
          have hxs : x = sW := eq_of_mem_of_find?_id st.wallets sW x sW.id hids hfindS hx
            (by simpa using hc)
          rw [hxs]
        · rw [if_neg hc]
      · exact howners
  · intro x hx
    rcases mem_map_update _ _ _ x hx with rfl | hx1
    · exact hbound rW hMemR
    · rcases mem_map_update _ _ _ x hx1 with rfl | hx2
      · exact hbound sW hMemS
      · exact hbound x hx2

theorem webhook_preserves (ref : String) (amt : Int) (st st' : LedgerState)
    (h : creditWalletFromWebhook ref amt st = .ok st') (hinv : LedgerInv st) :
    LedgerInv st' := by
  rcases creditWalletFromWebhook_ok_inv st st' ref amt h with rfl | hfull
  · exact hinv
  obtain ⟨txn, w, hfind, hns, htype, hamt', hw, hst⟩ := hfull
  subst hst
  obtain ⟨hbal, hamtP, hids, howners, hbound⟩ := hinv
  have hTxnMem : txn ∈ st.txns := List.mem_of_find?_eq_some hfind
  have hWMem : w ∈ st.wallets := List.mem_of_find?_eq_some hw
  have hwid : w.id = txn.walletId := by
    simpa using List.find?_some (p := fun x : Wallet => x.id == txn.walletId) hw
  have hpos : 0 < amt := by
    have := hamtP txn hTxnMem
    omega
  refine ⟨?_, ?_, ?_, ?_, ?_⟩
  · intro x hx
    rcases mem_map_update _ _ _ x hx with rfl | hx1
    · have hb := hbal w hWMem
      simp only
      omega
    · exact hbal x hx1
  · intro t ht
    rcases mem_map_update _ _ _ t ht with rfl | ht1
    · have := hamtP txn hTxnMem
      simpa using this
    · exact hamtP t ht1
  · apply pairwise_ne_map_of_eq_on
    · intro x hx
      by_cases hc : (x.id == w.id) = true
      · rw [if_pos hc]
        have hxw : x.id = w.id := by simpa using hc
        exact hxw.symm
      · rw [if_neg hc]
    · exact hids
  · apply pairwise_ne_map_of_eq_on
    · intro x hx
      by_cases hc : (x.id == w.id) = true
      · rw [if_pos hc]
        have hxw : x = w := eq_of_mem_of_find?_id st.wallets w x txn.walletId hids hw hx
          (by simpa [hwid] using hc)
        rw [hxw]
      · rw [if_neg hc]
    · exact howners
  · intro x hx
    rcases mem_map_update _ _ _ x hx with rfl | hx1
    · exact hbound w hWMem
    · exact hbound x hx1

theorem step_preserves (st : LedgerState) (op : Op) (hinv : LedgerInv st) :
    LedgerInv (step st op) := by
  cases op with
  | createUser uid =>
      simp only [step]
      by_cases h : (st.users.contains uid) = true
      · rw [if_pos h]
        exact hinv
      · rw [if_neg h]
        exact hinv
  | createWallet uid draws =>
      simp only [step]
      cases h : createWallet uid draws st with
      | ok p =>
          cases p with
          | mk st' w => exact createWallet_preserves uid draws st st' w h hinv
      | error e => exact hinv
  | initDeposit uid amount ref gatewayOk =>
      simp only [step]
      exact initializeDeposit_preserves uid amount ref gatewayOk st hinv
  | transfer uid num amount ref =>
      simp only [step]
      cases h : transfer uid num amount ref st with
      | ok p =>
          cases p with
          | mk st' tid => exact transfer_preserves uid num ref amount st st' tid h hinv
      | error e => exact hinv
  | webhook ref amount =>
      simp only [step]
      cases h : creditWalletFromWebhook ref amount st with
      | ok st' => exact webhook_preserves ref amount st st' h hinv
      | error e => exact hinv

theorem foldl_step_inv (ops : List Op) :
    ∀ st, LedgerInv st → LedgerInv (List.foldl step st ops) := by
  induction ops with
  | nil => intro st hinv; exact hinv
  | cons op rest ih =>
      intro st hinv
      exact ih (step st op) (step_preserves st op hinv)

theorem runOps_inv (ops : List Op) : LedgerInv (runOps ops) :=
  foldl_step_inv ops initState ledgerInv_initState

/-- C3: in every state reachable by any sequence of the core operations
(wallet creation, deposit initiation, transfers, webhook reconciliation),
every wallet balance is non-negative: wallets are created with balance 0,
transfer debits only after the under-lock re-check that the balance
covers the (at least 100 KOBO) amount, and reconciliation only adds the
positive recorded deposit amount. -/
theorem balancesNonnegReachableC3 (ops : List Op) (w : Wallet)
    (hw : w ∈ (runOps ops).wallets) : 0 ≤ w.balance :=
  (runOps_inv ops).1 w hw

/-- Witness for C3 after a create-deposit-reconcile-transfer run. -/
theorem balancesNonnegReachableC3_witness :
    ({ id := 0, userId := "u1", walletNumber := "4510000000", balance := 7000 } : Wallet) ∈
      (runOps [.createUser "u1", .createWallet "u1" (fun _ => 10000000),
        .createUser "u2", .createWallet "u2" (fun _ => 20000000),
        .initDeposit "u1" 10000 "TXN_A" true, .webhook "TXN_A" 10000,
        .transfer "u1" "4520000000" 3000 "TRF_X"]).wallets ∧
    (0 : Int) ≤ ({ id := 0, userId := "u1", walletNumber := "4510000000", balance := 7000 } : Wallet).balance :=
  ⟨by decide,
    balancesNonnegReachableC3
      [.createUser "u1", .createWallet "u1" (fun _ => 10000000),
        .createUser "u2", .createWallet "u2" (fun _ => 20000000),
        .initDeposit "u1" 10000 "TXN_A" true, .webhook "TXN_A" 10000,
        .transfer "u1" "4520000000" 3000 "TRF_X"]
      { id := 0, userId := "u1", walletNumber := "4510000000", balance := 7000 }
      (by decide)⟩

/-- Counterexample to C8: when the owner already has a wallet, the
authoritative `createWallet` performs no application-level check and no
Conflict/AlreadyExists error is raised — the save fails on the database
unique index on `user_id`, surfacing as a query-failure (internal)
error. -/
theorem createWalletDuplicateOwnerC8_counterexample :
    createWallet "u1" (fun _ => 20000000) stW =
      .error (.queryFailed "duplicate key value violates unique index on wallets.user_id") ∧
    isConflictError (createWallet "u1" (fun _ => 20000000) stW) = false :=
  ⟨rfl, by decide⟩

/-- C8 (amended): `createWallet` for an owner who already has a wallet
can never succeed — the database unique index on `user_id` makes the
save fail (with a query-failure error, not a Conflict/AlreadyExists
application error, and with no transactional pre-check in the service) —
and consequently in every reachable state each owner has at most one
wallet. -/
theorem createWalletUniqueOwnerC8 :
    (∀ (st : LedgerState) (uid : String) (draws : Nat → Nat) (w : Wallet),
      findWalletByUserId st uid = some w →
      ∀ r, createWallet uid draws st ≠ .ok r) ∧
    (∀ ops : List Op, walletOwnersUnique (runOps ops)) := by
  constructor
  · intro st uid draws w hw r h
    cases hgen : generateUniqueWalletNumber st draws with
    | error e =>
        simp only [createWallet, hgen] at h
        exact Except.noConfusion h
    | ok wn =>
        have hmem : w ∈ st.wallets := List.mem_of_find?_eq_some hw
        have hp : (w.userId == uid) = true :=
          List.find?_some (p := fun x : Wallet => x.userId == uid) hw
        have hany : (st.wallets.any (fun x => x.userId == uid)) = true :=
          List.any_eq_true.mpr ⟨w, hmem, hp⟩
        simp only [createWallet, hgen, hany, if_true] at h
        exact Except.noConfusion h
  · intro ops
    exact (runOps_inv ops).2.2.2.1

/-- Witness for the amended C8: a duplicate-owner creation attempt on a
concrete store, and owner uniqueness of a concrete two-op run. -/
theorem createWalletUniqueOwnerC8_witness :
    findWalletByUserId stW "u1" = some walletW ∧
    (∀ r, createWallet "u1" (fun _ => 30000000) stW ≠ .ok r) ∧
    walletOwnersUnique (runOps [.createUser "u1", .createWallet "u1" (fun _ => 10000000)]) :=
  ⟨by decide,
    createWalletUniqueOwnerC8.1 stW "u1" (fun _ => 30000000) walletW (by decide),
    createWalletUniqueOwnerC8.2 [.createUser "u1", .createWallet "u1" (fun _ => 10000000)]⟩
